import Mathlib

/-!
Verification of the dogfinder-web backend (src/backend/main.py, src/backend/app.py).

Shallow embedding conventions:
* Python `str` is modelled as `List Char` (`Str`); `s.lower()` is `List.map Char.toLower`,
  `s.strip()` is `pyStrip`, the substring test `a in b` is `isSubstr`.
* Python `dict`s with a known field set are structures whose fields are `Option`-valued
  (a `none` field models an absent key or a `None` value).
* ISO-8601 timestamps are abstracted by their parse outcome: a `PubStr` carries the
  value `datetime.fromisoformat` would produce, as `Option Int` (seconds since the Unix
  epoch, UTC), `none` when parsing raises.  `parse_dt` reads that outcome.
* Wall-clock times and expiry instants are `Int` seconds.
* Mutable module state (`_CACHE`, `_RATE_LIMIT`) is threaded explicitly as association
  lists with Python-`dict` insert/overwrite semantics.
* Network effects (the Petfinder pages returned for a ZIP, the organization lookup)
  are inputs: a page oracle `Str → List Payload` and a lookup oracle `Str → Option Org`.
-/

namespace Dogfinder

/-- Python `str`, modelled as a list of characters. -/
abbrev Str := List Char

/-- Coerce a Lean string literal to the `Str` model. -/
def str (s : String) : Str := s.data

/-- The ASCII part of Python's whitespace class (used by `str.strip`, `str.split`
and the regex class `\s`). -/
def isPySpace (c : Char) : Bool :=
  c = ' ' || c = '\t' || c = '\n' || c = '\r' || c = '\x0b' || c = '\x0c'

/-- Python regex word character `\w` (ASCII fragment): letters, digits, underscore. -/
def isWordChar (c : Char) : Bool := c.isAlphanum || c = '_'

/-- Python `s.strip()`: remove leading and trailing whitespace. -/
def pyStrip (s : Str) : Str :=
  ((s.dropWhile isPySpace).reverse.dropWhile isPySpace).reverse

/-- Python `s.lower()` (ASCII fragment). -/
def pyLower (s : Str) : Str := s.map Char.toLower

/-- Python substring test `p in t` on strings. -/
def isSubstr (p t : Str) : Bool :=
  (List.range (t.length + 1)).any fun i => ((t.drop i).take p.length) == p

/-- An ISO-8601 timestamp string, abstracted by the outcome of
`datetime.fromisoformat` on it: `parsed = some t` means it parses to the instant
`t` (seconds since the Unix epoch, UTC); `parsed = none` means parsing raises. -/
structure PubStr where
  parsed : Option Int
deriving DecidableEq, Repr

/-- The `breeds` sub-dictionary of a Petfinder animal. -/
structure Breeds where
  primary : Option Str := none
  secondary : Option Str := none
deriving DecidableEq, Repr

/-- The `address` sub-dictionary of a contact block. -/
structure Address where
  city : Option Str := none
  state : Option Str := none
deriving DecidableEq, Repr

/-- The `contact` sub-dictionary of a Petfinder animal. -/
structure Contact where
  email : Option Str := none
  phone : Option Str := none
  address : Option Address := none
deriving DecidableEq, Repr

/-- A resolved Petfinder organization record (`data["organization"]`). -/
structure Org where
  name : Option Str := none
  email : Option Str := none
  phone : Option Str := none
deriving DecidableEq, Repr

/-- The `organization` dictionary `extract_organization_info` attaches to an animal. -/
structure OrgInfo where
  name : Str
  email : Str
  phone : Str
deriving DecidableEq, Repr

/-- A Petfinder animal listing (the fields the backend reads). -/
structure Animal where
  id : Option Int := none
  name : Option Str := none
  breeds : Breeds := {}
  age : Option Str := none
  size : Option Str := none
  gender : Option Str := none
  published_at : PubStr := ⟨none⟩
  distance : Option Int := none
  contact : Contact := {}
  organization_id : Option Str := none
  organization : Option OrgInfo := none
deriving DecidableEq, Repr

/-- One page of the Petfinder `/animals` response: the `animals` array and
`pagination.total_pages` (`none` models an absent key). -/
structure Payload where
  animals : List Animal := []
  total_pages : Option Nat := none
deriving DecidableEq, Repr

/-- Source `main.py` `EXCLUDED_BREEDS` (iteration order of the Python set is irrelevant:
it is only consumed by an any-of test). -/
def EXCLUDED_BREEDS : List Str :=
  [str "Husky", str "Coonhound", str "Pit Bull", str "Jack Russell Terrier",
   str "German Shepherd", str "Carolina Dog Mix", str "Bull Terrier",
   str "Chihuahua", str "Rhodesian Ridgeback", str "Rottweiler",
   str "English Bulldog", str "American Staffordshire Terrier"]

/-- Source `main.py` `CUTOFF_UTC = NOW_UTC - timedelta(hours=24)`, as a function of the
module-import instant `now0` (`NOW_UTC`). -/
def CUTOFF_UTC (now0 : Int) : Int := now0 - 24 * 3600

/-- Source `main.py` `parse_dt`: returns the datetime, or `None` when parsing raises.
Under the `PubStr` abstraction this reads off the recorded parse outcome. -/
def parse_dt (s : PubStr) : Option Int := s.parsed

/-- Source `main.py` `within_24_hours`: `bool(dt and dt >= CUTOFF_UTC)` (datetimes are
always truthy, so only `None` short-circuits). `cutoff` is the module constant. -/
def within_24_hours (cutoff : Int) (s : PubStr) : Bool :=
  match parse_dt s with
  | some dt => decide (cutoff ≤ dt)
  | none => false

/-- Source `main.py` `breed_excluded`: collect the stripped, non-empty `primary` and
`secondary` breed names, join them with a space, lowercase, and test each
excluded breed (lowercased) as a substring. -/
def breed_excluded (breeds_obj : Breeds) : Bool :=
  let names : List Str :=
    (match breeds_obj.primary with
     | some v => if pyStrip v ≠ [] then [pyStrip v] else []
     | none => []) ++
    (match breeds_obj.secondary with
     | some v => if pyStrip v ≠ [] then [pyStrip v] else []
     | none => [])
  let text := List.intercalate (str " ") names
  let low := pyLower text
  EXCLUDED_BREEDS.any fun banned => isSubstr (pyLower banned) low

/-- Normalization used by `create_dog_fingerprint`:
`(dog.get(field) or "").strip().lower()`. -/
def normField (o : Option Str) : Str := pyLower (pyStrip (o.getD []))

/-- Source `main.py` `create_dog_fingerprint`: join the six normalized identifying
fields with `"|||"`. -/
def create_dog_fingerprint (dog : Animal) : Str :=
  List.intercalate (str "|||")
    [normField dog.name, normField dog.breeds.primary, normField dog.breeds.secondary,
     normField dog.age, normField dog.size, normField dog.gender]

/-- Fuel-driven worker for `pyReplace` (fuel `= text.length` suffices: each step
consumes at least one character of the text). -/
def pyReplaceGo (p r : Str) : Nat → Str → Str
  | 0, t => t
  | _ + 1, [] => []
  | fuel + 1, c :: rest =>
    if p ≠ [] ∧ ((c :: rest).take p.length) == p then
      r ++ pyReplaceGo p r fuel ((c :: rest).drop p.length)
    else
      c :: pyReplaceGo p r fuel rest

/-- Python `t.replace(p, r)`: replace every non-overlapping occurrence of `p`
in `t` by `r`, scanning left to right. -/
def pyReplace (p r t : Str) : Str := pyReplaceGo p r t.length t

/-- Python `s.split(sep)` for a single-character separator. -/
def pySplit (sep : Char) (s : Str) : List Str :=
  s.foldr
    (fun c acc =>
      if c = sep then [] :: acc
      else
        match acc with
        | [] => [[c]]
        | w :: ws => (c :: w) :: ws)
    [[]]

/-- Python `s.split()` (no argument): split on whitespace runs, discarding
empty fields. -/
def pySplitWs (s : Str) : List Str :=
  (s.foldr
    (fun c acc =>
      if isPySpace c then [] :: acc
      else
        match acc with
        | [] => [[c]]
        | w :: ws => (c :: w) :: ws)
    []).filter (· ≠ [])

/-- Python `w.capitalize()`: first character uppercased, the rest lowercased. -/
def pyCapitalize : Str → Str
  | [] => []
  | c :: cs => Char.toUpper c :: cs.map Char.toLower

/-- The email-domain organization-name derivation of
`extract_organization_info` (both fallback branches run this same code):
`domain = email.split("@")[1]`, strip the `.org`/`.com`/`.net` suffix strings,
turn `.` and `-` into spaces, split into words, capitalize each, re-join. -/
def derive_org_name_from_email (email : Str) : Str :=
  let domain := (pySplit '@' email).getD 1 []
  let n1 := pyReplace (str ".net") []
              (pyReplace (str ".com") [] (pyReplace (str ".org") [] domain))
  let words := pySplitWs (pyReplace (str "-") (str " ") (pyReplace (str ".") (str " ") n1))
  List.intercalate (str " ") (words.map pyCapitalize)

/-- Python `f"Shelter in ..."`: the literal `Shelter in `, the city, `, `, the state. -/
def shelter_in (city state : Str) : Str :=
  str "Shelter in " ++ city ++ str ", " ++ state

/-- Source `main.py` `extract_organization_info`.  The effectful
`get_organization_by_id(org_id, token)` (network + `_ORG_CACHE`) is abstracted
as the oracle `getOrg`; Python's truthiness test `if organization_id:` requires
a present, non-empty id. -/
def extract_organization_info (getOrg : Str → Option Org) (animal : Animal) : OrgInfo :=
  let contact := animal.contact
  let fromApi : Option Org :=
    match animal.organization_id with
    | some oid => if oid ≠ [] then getOrg oid else none
    | none => none
  match fromApi with
  | some org_data =>
    { name := org_data.name.getD (str "Unknown Shelter")
      email := org_data.email.getD (contact.email.getD [])
      phone := org_data.phone.getD (contact.phone.getD []) }
  | none =>
    let address := contact.address.getD {}
    let city := address.city.getD []
    let state := address.state.getD []
    let email := contact.email.getD []
    let org_name :=
      if city ≠ [] ∧ state ≠ [] then
        if email ≠ [] ∧ '@' ∈ email then
          let d := derive_org_name_from_email email
          if d = [] then shelter_in city state else d
        else shelter_in city state
      else if email ≠ [] ∧ '@' ∈ email then
        derive_org_name_from_email email
      else str "Unknown Shelter"
    { name := org_name, email := email, phone := contact.phone.getD [] }

/-- Assignment of the organization field before insertion (`extract_organization_info` attached to the listing). -/
def withOrg (getOrg : Str → Option Org) (a : Animal) : Animal :=
  { a with organization := some (extract_organization_info getOrg a) }

/-- Python `pagination.get("total_pages") or page`: an absent or falsy (0) value
defaults to the current page number. -/
def orPage (tp : Option Nat) (page : Nat) : Nat :=
  match tp with
  | some n => if n = 0 then page else n
  | none => page

/-- Loop body of `collect_animals_for_zip_filtered`.  `payloads` lists the
upstream responses for pages `1, 2, …` (requests beyond the list return an
empty page, which terminates the loop, so fuel `payloads.length + 1` is
enough; the fuel-0 branch is unreachable from `collect_animals_for_zip_filtered`). -/
def collectGo (cutoff : Int) (payloads : List Payload) : Nat → Nat → List Animal → List Animal
  | 0, _, acc => acc
  | fuel + 1, page, acc =>
    let payload := payloads.getD (page - 1) {}
    let animals := payload.animals
    if animals = [] then acc
    else
      let last_published :=
        match animals.getLast? with
        | some a => parse_dt a.published_at
        | none => none
      let acc := acc ++ animals
      let total_pages := orPage payload.total_pages page
      if total_pages ≤ page then acc
      else if (match last_published with | some d => decide (d < cutoff) | none => false) then acc
      else collectGo cutoff payloads fuel (page + 1) acc

/-- Source `main.py` `collect_animals_for_zip_filtered`: paginate from page 1,
accumulating every page, stopping on an empty page, on the reported
`total_pages`, or when the last listing of a page is older than the cutoff.
The HTTP parameters (zip, distance, ages) are absorbed into the page oracle. -/
def collect_animals_for_zip_filtered (cutoff : Int) (payloads : List Payload) : List Animal :=
  collectGo cutoff payloads (payloads.length + 1) 1 []

/-- Association-list lookup with Python-`dict` key semantics. -/
def dlookup {κ α : Type} [DecidableEq κ] (k : κ) : List (κ × α) → Option α
  | [] => none
  | (k', v) :: rest => if k' = k then some v else dlookup k rest

/-- Association-list insert with Python-`dict` semantics: overwrite the
existing binding in place, else append. -/
def dinsert {κ α : Type} [DecidableEq κ] (k : κ) (v : α) : List (κ × α) → List (κ × α)
  | [] => [(k, v)]
  | (k', v') :: rest => if k' = k then (k, v) :: rest else (k', v') :: dinsert k v rest

/-- Association-list delete (`dict.pop(key, None)`). -/
def derase {κ α : Type} [DecidableEq κ] (k : κ) : List (κ × α) → List (κ × α)
  | [] => []
  | (k', v') :: rest => if k' = k then rest else (k', v') :: derase k rest

/-- State of the aggregation loop in `search_animals`: the `all_animals`
insertion-ordered dict (id → listing) and the `seen_fingerprints` set
(kept as the list of fingerprints in insertion order). -/
structure AggState where
  animals : List (Int × Animal) := []
  fps : List Str := []

/-- One iteration of the aggregation loop of `search_animals` (main.py lines
302–324): drop stale listings, drop excluded breeds, drop seen fingerprints,
drop missing or duplicate ids, else attach organization info and retain. -/
def agg_step (cutoff : Int) (getOrg : Str → Option Org) (st : AggState) (a : Animal) : AggState :=
  if within_24_hours cutoff a.published_at = false then st
  else if breed_excluded a.breeds then st
  else if create_dog_fingerprint a ∈ st.fps then st
  else
    match a.id with
    | none => st
    | some aid =>
      if aid ∈ st.animals.map Prod.fst then st
      else
        { animals := st.animals ++ [(aid, withOrg getOrg a)]
          fps := st.fps ++ [create_dog_fingerprint a] }

/-- The aggregation pass of `search_animals` over the fetched listings
(the per-zip loops flattened into one traversal). -/
def aggregate (cutoff : Int) (getOrg : Str → Option Org) (fetched : List Animal) :
    List (Int × Animal) :=
  (fetched.foldl (agg_step cutoff getOrg) {}).animals

/-- The inner `matches_filters` of `search_animals`: size whitelist, then
include-breed substrings over the joined stripped breed names, then
exclude-breed substrings over the joined raw breed names. -/
def matches_filters (include_breeds exclude_breeds sizes : List Str) (a : Animal) : Bool :=
  (if sizes ≠ [] then
    (sizes.map pyLower).contains (pyLower (a.size.getD []))
   else true) &&
  (if include_breeds ≠ [] then
    let names : List Str :=
      (match a.breeds.primary with
       | some v => if pyStrip v ≠ [] then [pyLower (pyStrip v)] else []
       | none => []) ++
      (match a.breeds.secondary with
       | some v => if pyStrip v ≠ [] then [pyLower (pyStrip v)] else []
       | none => [])
    include_breeds.any fun inc => isSubstr (pyLower inc) (List.intercalate (str " ") names)
   else true) &&
  (if exclude_breeds ≠ [] then
    let names_text :=
      pyLower (List.intercalate (str " ")
        [a.breeds.primary.getD [], a.breeds.secondary.getD []])
    !exclude_breeds.any fun ex => isSubstr (pyLower ex) names_text
   else true)

/-- Sort key for `sort == "distance"`: `x.get("distance") or 0`. -/
def distance_key (a : Animal) : Int := a.distance.getD 0

/-- Sort key for the default branch: the parsed `published_at`, with
`datetime.fromtimestamp(0, tz=utc)` (the Unix epoch, i.e. `0`) for
unparseable timestamps. -/
def freshness_key (a : Animal) : Int := (parse_dt a.published_at).getD 0

/-- The sorting step of `search_animals`: Python's stable `list.sort` is
modelled by the stable `List.insertionSort`; `reverse=True` keeps equal keys in
encounter order, matching insertion sort under the flipped relation. -/
def sortStep (sort : Str) (l : List Animal) : List Animal :=
  if sort = str "distance" then
    List.insertionSort (fun x y => distance_key x ≤ distance_key y) l
  else
    List.insertionSort (fun x y => freshness_key y ≤ freshness_key x) l

/-- Return value of `search_animals`. -/
structure SearchResult where
  items : List Animal
  page : Nat
  pageSize : Nat
  total : Nat
deriving DecidableEq, Repr

/-- The fetched listings of one `search_animals` call: the per-zip results of
`collect_animals_for_zip_filtered`, concatenated in zip order (the HTTP
parameters `distance_miles` / `ages_csv` are absorbed into the page oracle). -/
def fetch_zips (cutoff : Int) (pagesOf : Str → List Payload) (zips : List Str) : List Animal :=
  zips.flatMap fun z => collect_animals_for_zip_filtered cutoff (pagesOf z)

/-- The deduplicated, caller-filtered listing list of `search_animals`
(`filtered = [a for a in all_animals.values() if matches_filters(a)]`). -/
def pipeline_filtered (cutoff : Int) (getOrg : Str → Option Org) (pagesOf : Str → List Payload)
    (zips include_breeds exclude_breeds sizes : List Str) : List Animal :=
  ((aggregate cutoff getOrg (fetch_zips cutoff pagesOf zips)).map Prod.snd).filter
    (matches_filters include_breeds exclude_breeds sizes)

/-- Source `main.py` `search_animals` (lines 280–368), after the rate-limit guard:
fetch per zip, aggregate/dedup, apply caller filters, sort, and paginate with
`start = max((page - 1) * page_size, 0)` (the truncated `Nat` subtraction
realizes the `max(…, 0)`). -/
def search_animals (cutoff : Int) (getOrg : Str → Option Org) (pagesOf : Str → List Payload)
    (zips include_breeds exclude_breeds sizes : List Str)
    (page page_size : Nat) (sort : Str) : SearchResult :=
  let sorted := sortStep sort (pipeline_filtered cutoff getOrg pagesOf zips
    include_breeds exclude_breeds sizes)
  let total := sorted.length
  let start := (page - 1) * page_size
  { items := (sorted.drop start).take page_size
    page := page
    pageSize := page_size
    total := total }

/-- Source `main.py` `cache_get`: look the key up in `_CACHE`; absent ⇒ `None` with
the cache unchanged; expired (`exp < now`, strict) ⇒ pop the entry and return
`None`; else return the value with the cache unchanged.  Returns the value
paired with the cache state after the call. -/
def cache_get {α : Type} (c : List (Str × Int × α)) (now : Int) (key : Str) :
    Option α × List (Str × Int × α) :=
  match dlookup key c with
  | none => (none, c)
  | some (exp, val) => if exp < now then (none, derase key c) else (some val, c)

/-- Source `main.py` `cache_set`: store `(now + ttl, val)` under `key`. -/
def cache_set {α : Type} (c : List (Str × Int × α)) (now : Int) (key : Str)
    (val : α) (ttl_seconds : Int) : List (Str × Int × α) :=
  dinsert key (now + ttl_seconds, val) c

/-- Source `main.py` `check_rate_limit`.  `_RATE_LIMIT` maps record keys
`f"rate:{identifier}:{now}"` — modelled as the pair `(identifier, now)` — to
timestamps.  The function sweeps stale entries, counts the surviving values
(note: across *all* identifiers), refuses when the count reaches
`max_requests`, and otherwise records the new request.  Returns the verdict
paired with the `_RATE_LIMIT` state after the call. -/
def check_rate_limit (st : List ((Str × Int) × Int)) (identifier : Str)
    (max_requests : Nat) (window_seconds now : Int) :
    Bool × List ((Str × Int) × Int) :=
  let cutoff := now - window_seconds
  let st1 := st.filter fun kv => decide (cutoff < kv.2)
  let recent := (st1.map Prod.snd).filter fun v => decide (cutoff < v)
  if max_requests ≤ recent.length then (false, st1)
  else (true, dinsert (identifier, now) now st1)

/-- Word-boundary check on the left edge of a match at index `i` (the regex
patterns all begin with a word character, so `\b` there demands a non-word
character, or the start of the text, just before `i`). -/
def okL (t : Str) : Nat → Bool
  | 0 => true
  | j + 1 =>
    match t[j]? with
    | none => true
    | some c => !isWordChar c

/-- Word-boundary check on the right edge of a match ending at index `i`
(the patterns all end with a word character). -/
def okR (t : Str) (i : Nat) : Bool :=
  match t[i]? with
  | none => true
  | some c => !isWordChar c

/-- The literal `w` occurs at index `i` of `t`. -/
def sliceEq (t w : Str) (i : Nat) : Bool := ((t.drop i).take w.length) == w

/-- Model of `re.search` for one alternative of a word-bounded literal group: matches `w` whose first and
last characters are word characters. -/
def wordOccB (w t : Str) : Bool :=
  (List.range (t.length + 1)).any fun i =>
    sliceEq t w i && okL t i && okR t (i + w.length)

/-- Model of `re.search` over an alternation of word-bounded literals. -/
def wordAnyB (ws : List Str) (t : Str) : Bool := ws.any fun w => wordOccB w t

/-- Characters `i, …, i+k-1` of `t` exist and are all whitespace. -/
def wsRun (t : Str) (i k : Nat) : Bool :=
  ((t.drop i).take k).length == k && ((t.drop i).take k).all isPySpace

/-- Model of `re.search` for a two-word phrase pattern with a whitespace run between the words, word-bounded. -/
def phraseOccB (w₁ w₂ t : Str) : Bool :=
  (List.range (t.length + 1)).any fun i =>
    (List.range (t.length + 1)).any fun k =>
      decide (1 ≤ k) && sliceEq t w₁ i && wsRun t (i + w₁.length) k &&
      sliceEq t w₂ (i + w₁.length + k) && okL t i &&
      okR t (i + w₁.length + k + w₂.length)

/-- Result of `parse_guidance_for_size_filtering`. -/
structure GuidanceFilter where
  filter_sizes : Option (List Str)
  exclude_sizes : Option (List Str)
deriving DecidableEq, Repr

/-- Source `app.py`: the five large-preference patterns, applied to the lowercased
guidance text. -/
def wants_large (gl : Str) : Bool :=
  wordAnyB [str "largest", str "larger", str "large", str "big", str "bigger",
            str "biggest", str "xl", str "xlarge", str "x-large"] gl ||
  wordAnyB [str "giant", str "massive", str "huge"] gl ||
  phraseOccB (str "nothing") (str "small") gl ||
  phraseOccB (str "no") (str "small") gl ||
  phraseOccB (str "exclude") (str "small") gl

/-- Source `app.py`: the four small-preference patterns, applied to the lowercased
guidance text. -/
def wants_small (gl : Str) : Bool :=
  wordAnyB [str "smallest", str "smaller", str "small", str "tiny",
            str "little", str "miniature", str "mini"] gl ||
  phraseOccB (str "nothing") (str "large") gl ||
  phraseOccB (str "no") (str "large") gl ||
  phraseOccB (str "exclude") (str "large") gl

/-- Source `app.py` `parse_guidance_for_size_filtering`: a falsy (absent or empty)
guidance yields no filter; a clear large bias filters for large sizes, a clear
small bias for small sizes; otherwise no filter. -/
def parse_guidance_for_size_filtering (guidance : Option Str) : GuidanceFilter :=
  match guidance with
  | none => ⟨none, none⟩
  | some g =>
    if g = [] then ⟨none, none⟩
    else
      let gl := pyLower g
      if wants_large gl && !wants_small gl then
        ⟨some [str "Large", str "Extra Large", str "XL"], some [str "Small"]⟩
      else if wants_small gl && !wants_large gl then
        ⟨some [str "Small"], some [str "Large", str "Extra Large", str "XL"]⟩
      else ⟨none, none⟩

/-- Wrapper: `within_24_hours` as invoked at wall-clock instant `reqTime` in a process
whose module was imported at `now0`: the source reads only the module constant
`CUTOFF_UTC` (computed once from `NOW_UTC` at import), never the current
clock, so `reqTime` does not occur in the body. -/
def within_24_hours_at (now0 reqTime : Int) (s : PubStr) : Bool :=
  within_24_hours (CUTOFF_UTC now0) s

/-- Wrapper: `collect_animals_for_zip_filtered` as invoked at wall-clock `reqTime` in a
process imported at `now0`: its early pagination exit compares against the
same module constant `CUTOFF_UTC`. -/
def collect_animals_at (now0 reqTime : Int) (payloads : List Payload) : List Animal :=
  collect_animals_for_zip_filtered (CUTOFF_UTC now0) payloads

/-- Wrapper: `search_animals` as invoked at wall-clock `reqTime` in a process imported
at `now0`: every recency decision inside uses the module constant. -/
def search_animals_at (now0 reqTime : Int) (getOrg : Str → Option Org)
    (pagesOf : Str → List Payload) (zips include_breeds exclude_breeds sizes : List Str)
    (page page_size : Nat) (sort : Str) : SearchResult :=
  search_animals (CUTOFF_UTC now0) getOrg pagesOf zips include_breeds exclude_breeds sizes
    page page_size sort

/-- Call timestamps `0, 1, …, n-1`. -/
def rl_times (n : Nat) : List Int := (List.range n).map Int.ofNat

/-- A sequence of `check_rate_limit` calls for one identifier: collect the
verdicts and thread the `_RATE_LIMIT` state. -/
def rl_run (identifier : Str) (max_requests : Nat) (window_seconds : Int)
    (st : List ((Str × Int) × Int)) (times : List Int) :
    List Bool × List ((Str × Int) × Int) :=
  times.foldl
    (fun acc t =>
      let r := check_rate_limit acc.2 identifier max_requests window_seconds t
      (acc.1 ++ [r.1], r.2))
    ([], st)

/-- The `_RATE_LIMIT` contents after `k` granted requests at times `0, …, k-1`. -/
def rlS (identifier : Str) (k : Nat) : List ((Str × Int) × Int) :=
  (List.range k).map fun i => ((identifier, Int.ofNat i), Int.ofNat i)

/-- Invariant of the aggregation loop: ids are pairwise distinct, fingerprints
are pairwise distinct, `seen_fingerprints` holds exactly the fingerprints of
the retained listings, and every retained listing passed the recency and
breed-exclusion guards. -/
def AggInv (cutoff : Int) (st : AggState) : Prop :=
  (st.animals.map Prod.fst).Nodup ∧
  (st.animals.map fun p => create_dog_fingerprint p.2).Nodup ∧
  st.fps = st.animals.map (fun p => create_dog_fingerprint p.2) ∧
  ∀ p ∈ st.animals,
    within_24_hours cutoff p.2.published_at = true ∧ breed_excluded p.2.breeds = false

/-- Organization-lookup oracle modelling a failed lookup (network error or
not-found) for every id. -/
def noOrg : Str → Option Org := fun _ => none

/-- A single-page oracle serving the given listings for every ZIP code. -/
def pagesFor (l : List Animal) : Str → List Payload :=
  fun _ => [{ animals := l, total_pages := some 1 }]

/-- A concrete fresh listing. -/
def dogA : Animal :=
  { id := some 1, name := some (str "Rex"), age := some (str "Baby"),
    size := some (str "Small"), gender := some (str "Male"),
    published_at := ⟨some 5⟩, distance := some 3 }

/-- The same listing re-posted under a different id (identical fingerprint). -/
def dogB : Animal := { dogA with id := some 2 }

/-- Listing `dogA` as retained by aggregation: organization info attached
(`extract_organization_info` degrades to the generic placeholder here). -/
def dogA' : Animal :=
  { dogA with organization := some { name := str "Unknown Shelter", email := [], phone := [] } }

/-- Listings with distances 5, 1, 3 and publish instants T1=10, T2=5, T3=20. -/
def dogD5 : Animal := { id := some 11, distance := some 5, published_at := ⟨some 10⟩ }

def dogD1 : Animal := { id := some 12, distance := some 1, published_at := ⟨some 5⟩ }

def dogD3 : Animal := { id := some 13, distance := some 3, published_at := ⟨some 20⟩ }

/-- A listing whose publish timestamp fails to parse. -/
def dogUnp : Animal := { id := some 14, published_at := ⟨none⟩ }

/-- A listing whose publish timestamp parses to one day before the Unix epoch. -/
def dogPre : Animal := { id := some 15, published_at := ⟨some (-86400)⟩ }

/-- A listing whose organization lookup will fail and whose contact block has
only the email `a@.org` (its domain part normalizes to the empty string). -/
def dogBadEmail : Animal :=
  { id := some 21, organization_id := some (str "ORG1"),
    contact := { email := some (str "a@.org") } }

/-- A listing with a full contact block (city, state and a usable email). -/
def dogCity : Animal :=
  { id := some 22, organization_id := some (str "ORG2"),
    contact := { email := some (str "info@happy-paws.org"), phone := some (str "555"),
                 address := some { city := some (str "Philadelphia"), state := some (str "PA") } } }

/-- Function `isSubstr` decides the mathlib infix relation. -/
theorem isSubstr_correct (p t : Str) : isSubstr p t = true ↔ p <:+: t := by
  constructor
  · intro h
    rcases List.any_eq_true.mp h with ⟨i, _, hi⟩
    have hp : (t.drop i).take p.length = p := by
      simpa using hi
    refine ⟨t.take i, (t.drop i).drop p.length, ?_⟩
    calc t.take i ++ p ++ (t.drop i).drop p.length
        = t.take i ++ ((t.drop i).take p.length ++ (t.drop i).drop p.length) := by
          rw [hp, List.append_assoc]
      _ = t.take i ++ t.drop i := by rw [List.take_append_drop]
      _ = t := List.take_append_drop i t
  · rintro ⟨s, u, rfl⟩
    apply List.any_eq_true.mpr
    refine ⟨s.length, ?_, ?_⟩
    · simp [List.mem_range]
      omega
    · have : ((s ++ (p ++ u)).drop s.length) = p ++ u := by
        simp
      rw [List.append_assoc, this]
      simp

theorem isPySpace_not_word (c : Char) (h : isPySpace c = true) : isWordChar c = false := by
  unfold isPySpace at h
  simp only [Bool.or_eq_true, decide_eq_true_eq] at h
  rcases h with ⟨⟨⟨⟨h | h⟩ | h⟩ | h⟩ | h⟩ | h <;> subst h <;> decide

theorem phraseOccB_nil (w₁ w₂ : Str) : phraseOccB w₁ w₂ [] = false := by
  simp [phraseOccB, List.range_succ]

/-- A match of `\bw₁\s+w₂\b` contains a match of `\bw₂\b`: the character before
the `w₂` occurrence is the last whitespace of the `\s+` run, which is not a word
character, and the right boundary is shared. -/
theorem phraseOccB_imp_wordOccB (w₁ w₂ t : Str) (h : phraseOccB w₁ w₂ t = true) :
    wordOccB w₂ t = true := by
  unfold phraseOccB at h
  rcases List.any_eq_true.mp h with ⟨i, _, hi⟩
  rcases List.any_eq_true.mp hi with ⟨k, _, hk⟩
  simp only [Bool.and_eq_true, decide_eq_true_eq] at hk
  obtain ⟨⟨⟨⟨⟨hk1, hsl1⟩, hws⟩, hsl2⟩, hokL⟩, hokR⟩ := hk
  unfold wsRun at hws
  simp only [Bool.and_eq_true, beq_iff_eq, List.all_eq_true] at hws
  obtain ⟨hlen, hall⟩ := hws
  obtain ⟨k', rfl⟩ : ∃ k', k = k' + 1 := ⟨k - 1, by omega⟩
  have hbound : i + w₁.length + (k' + 1) ≤ t.length := by
    rw [List.length_take, List.length_drop] at hlen; omega
  apply List.any_eq_true.mpr
  refine ⟨i + w₁.length + (k' + 1), by simp only [List.mem_range]; omega, ?_⟩
  simp only [Bool.and_eq_true]
  refine ⟨⟨hsl2, ?_⟩, hokR⟩
  have harr : i + w₁.length + (k' + 1) = (i + w₁.length + k') + 1 := by omega
  rw [harr]
  have hlt : k' < ((t.drop (i + w₁.length)).take (k' + 1)).length := by rw [hlen]; omega
  have hget : t[i + w₁.length + k']? =
      some (((t.drop (i + w₁.length)).take (k' + 1)).get ⟨k', hlt⟩) := by
    rw [← List.getElem?_drop, ← List.getElem?_take_of_lt (Nat.lt_succ_self k'),
      List.get_eq_getElem]
    exact List.getElem?_eq_getElem hlt
  have hspace : isPySpace (((t.drop (i + w₁.length)).take (k' + 1)).get ⟨k', hlt⟩) = true :=
    hall _ (by rw [List.get_eq_getElem]; exact List.getElem_mem hlt)
  have hred : okL t (i + w₁.length + k' + 1) =
      match t[i + w₁.length + k']? with
      | none => true
      | some c => !isWordChar c := rfl
  rw [hred, hget]
  show (!isWordChar (((t.drop (i + w₁.length)).take (k' + 1)).get ⟨k', hlt⟩)) = true
  rw [isPySpace_not_word _ hspace]
  rfl

/-- C10: for guidance texts that negate a size — any text whose lowercased form
matches `no\s+small` or `nothing\s+small` (resp. `no\s+large` or
`nothing\s+large`) — `parse_guidance_for_size_filtering` matches both the
large-preference patterns (via the negation phrase) and the small-preference
patterns (via the bare word `small`, resp. `large`), so it returns no size
filter at all: `{filter_sizes: None, exclude_sizes: None}`. -/
theorem claim_C10_guidance_negation_no_filter (g : Str)
    (h : phraseOccB (str "no") (str "small") (pyLower g) = true ∨
         phraseOccB (str "nothing") (str "small") (pyLower g) = true ∨
         phraseOccB (str "no") (str "large") (pyLower g) = true ∨
         phraseOccB (str "nothing") (str "large") (pyLower g) = true) :
    wants_large (pyLower g) = true ∧ wants_small (pyLower g) = true ∧
    parse_guidance_for_size_filtering (some g) = ⟨none, none⟩ := by
  have hne : g ≠ [] := by
    rintro rfl
    have hnil : pyLower [] = ([] : Str) := rfl
    rw [hnil] at h
    rcases h with h | h | h | h <;> rw [phraseOccB_nil] at h <;> exact Bool.false_ne_true h
  have hlarge : wants_large (pyLower g) = true := by
    unfold wants_large
    rcases h with h | h | h | h
    · rw [h]; simp
    · rw [h]; simp
    · have hw := phraseOccB_imp_wordOccB _ _ _ h
      have : wordAnyB [str "largest", str "larger", str "large", str "big", str "bigger",
          str "biggest", str "xl", str "xlarge", str "x-large"] (pyLower g) = true := by
        unfold wordAnyB
        exact List.any_eq_true.mpr ⟨str "large", by decide, hw⟩
      rw [this]; simp
    · have hw := phraseOccB_imp_wordOccB _ _ _ h
      have : wordAnyB [str "largest", str "larger", str "large", str "big", str "bigger",
          str "biggest", str "xl", str "xlarge", str "x-large"] (pyLower g) = true := by
        unfold wordAnyB
        exact List.any_eq_true.mpr ⟨str "large", by decide, hw⟩
      rw [this]; simp
  have hsmall : wants_small (pyLower g) = true := by
    unfold wants_small
    rcases h with h | h | h | h
    · have hw := phraseOccB_imp_wordOccB _ _ _ h
      have : wordAnyB [str "smallest", str "smaller", str "small", str "tiny",
          str "little", str "miniature", str "mini"] (pyLower g) = true := by
        unfold wordAnyB
        exact List.any_eq_true.mpr ⟨str "small", by decide, hw⟩
      rw [this]; simp
    · have hw := phraseOccB_imp_wordOccB _ _ _ h
      have : wordAnyB [str "smallest", str "smaller", str "small", str "tiny",
          str "little", str "miniature", str "mini"] (pyLower g) = true := by
        unfold wordAnyB
        exact List.any_eq_true.mpr ⟨str "small", by decide, hw⟩
      rw [this]; simp
    · rw [h]; simp
    · rw [h]; simp
  refine ⟨hlarge, hsmall, ?_⟩
  simp [parse_guidance_for_size_filtering, hne, hlarge, hsmall]

/-- C10 witness: the literal guidance `"no small"` triggers the negation
phrase and yields no size filter. -/
theorem claim_C10_witness :
    (phraseOccB (str "no") (str "small") (pyLower (str "no small")) = true ∨
     phraseOccB (str "nothing") (str "small") (pyLower (str "no small")) = true ∨
     phraseOccB (str "no") (str "large") (pyLower (str "no small")) = true ∨
     phraseOccB (str "nothing") (str "large") (pyLower (str "no small")) = true) ∧
    parse_guidance_for_size_filtering (some (str "no small")) = ⟨none, none⟩ :=
  ⟨Or.inl (by decide),
   (claim_C10_guidance_negation_no_filter (str "no small") (Or.inl (by decide))).2.2⟩

theorem withOrg_fingerprint (getOrg : Str → Option Org) (a : Animal) :
    create_dog_fingerprint (withOrg getOrg a) = create_dog_fingerprint a := rfl

theorem withOrg_published (getOrg : Str → Option Org) (a : Animal) :
    (withOrg getOrg a).published_at = a.published_at := rfl

theorem withOrg_breeds (getOrg : Str → Option Org) (a : Animal) :
    (withOrg getOrg a).breeds = a.breeds := rfl

theorem agg_step_inv (cutoff : Int) (getOrg : Str → Option Org) (st : AggState) (a : Animal)
    (h : AggInv cutoff st) : AggInv cutoff (agg_step cutoff getOrg st a) := by
  obtain ⟨hids, hfpn, hfps, hall⟩ := h
  unfold agg_step
  cases ha : a.id with
  | none => split_ifs <;> exact ⟨hids, hfpn, hfps, hall⟩
  | some aid =>
    dsimp only
    split_ifs with h1 h2 h3 h4
    · exact ⟨hids, hfpn, hfps, hall⟩
    · exact ⟨hids, hfpn, hfps, hall⟩
    · exact ⟨hids, hfpn, hfps, hall⟩
    · exact ⟨hids, hfpn, hfps, hall⟩
    · have hfpa : create_dog_fingerprint a ∉ st.animals.map fun p => create_dog_fingerprint p.2 := by
        rw [← hfps]; exact h3
      have hw24 : within_24_hours cutoff a.published_at = true := by
        cases hb : within_24_hours cutoff a.published_at
        · exact absurd hb h1
        · rfl
      have hbe : breed_excluded a.breeds = false := by
        cases hb : breed_excluded a.breeds
        · rfl
        · exact absurd hb h2
      refine ⟨?_, ?_, ?_, ?_⟩
      · rw [List.map_append]
        refine List.Nodup.append hids (List.nodup_singleton aid) ?_
        intro x hx hx'
        rw [List.map_singleton, List.mem_singleton] at hx'
        subst hx'
        exact h4 hx
      · rw [List.map_append]
        refine List.Nodup.append hfpn (List.nodup_singleton _) ?_
        intro x hx hx'
        rw [List.map_singleton, List.mem_singleton] at hx'
        subst hx'
        rw [withOrg_fingerprint] at hx
        exact hfpa hx
      · rw [List.map_append, ← hfps, List.map_singleton, withOrg_fingerprint]
      · intro p hp
        rcases List.mem_append.mp hp with hp | hp
        · exact hall p hp
        · rw [List.mem_singleton] at hp
          subst hp
          exact ⟨by rw [withOrg_published]; exact hw24, by rw [withOrg_breeds]; exact hbe⟩

theorem foldl_agg_inv (cutoff : Int) (getOrg : Str → Option Org) (l : List Animal)
    (st : AggState) (h : AggInv cutoff st) :
    AggInv cutoff (l.foldl (agg_step cutoff getOrg) st) := by
  induction l generalizing st with
  | nil => exact h
  | cons a tl ih => exact ih _ (agg_step_inv cutoff getOrg st a h)

theorem aggregate_inv (cutoff : Int) (getOrg : Str → Option Org) (fetched : List Animal) :
    AggInv cutoff (fetched.foldl (agg_step cutoff getOrg) {}) :=
  foldl_agg_inv cutoff getOrg fetched {} ⟨List.nodup_nil, List.nodup_nil, rfl, by simp⟩

theorem mem_infix_intercalate (x s : Str) (l : List Str) (h : x ∈ l) :
    x <:+: List.intercalate s l := by
  induction l with
  | nil => cases h
  | cons y tl ih =>
    rcases List.mem_cons.mp h with rfl | h
    · cases tl with
      | nil => simp [List.intercalate]
      | cons z tl' =>
        rw [show List.intercalate s (x :: z :: tl') = x ++ s ++ List.intercalate s (z :: tl') by
          simp [List.intercalate, List.intersperse_cons₂, List.append_assoc]]
        exact ⟨[], s ++ List.intercalate s (z :: tl'), by simp [List.append_assoc]⟩
    · cases tl with
      | nil => cases h
      | cons z tl' =>
        rw [show List.intercalate s (y :: z :: tl') = y ++ s ++ List.intercalate s (z :: tl') by
          simp [List.intercalate, List.intersperse_cons₂, List.append_assoc]]
        rcases ih h with ⟨a, b, hab⟩
        exact ⟨y ++ s ++ a, b, by rw [← hab]; simp [List.append_assoc]⟩

theorem excluded_breeds_ne_nil (banned : Str) (hb : banned ∈ EXCLUDED_BREEDS) :
    banned ≠ [] := by
  fin_cases hb <;> decide

/-- If a stripped breed name contains an excluded-breed substring
(case-insensitively), `breed_excluded` fires. -/
theorem breed_excluded_of_substr (b : Breeds) (banned : Str) (hb : banned ∈ EXCLUDED_BREEDS)
    (h : pyLower banned <:+: pyLower (pyStrip (b.primary.getD [])) ∨
         pyLower banned <:+: pyLower (pyStrip (b.secondary.getD []))) :
    breed_excluded b = true := by
  have hbne : banned ≠ [] := excluded_breeds_ne_nil banned hb
  unfold breed_excluded
  apply List.any_eq_true.mpr
  refine ⟨banned, hb, ?_⟩
  set names : List Str :=
    (match b.primary with
     | some v => if pyStrip v ≠ [] then [pyStrip v] else []
     | none => []) ++
    (match b.secondary with
     | some v => if pyStrip v ≠ [] then [pyStrip v] else []
     | none => []) with hnames
  rw [isSubstr_correct]
  have hmem : ∀ (part : Str), pyLower banned <:+: pyLower part →
      part ∈ names → pyLower banned <:+: pyLower (List.intercalate (str " ") names) := by
    intro part hpart hpartmem
    exact hpart.trans ((mem_infix_intercalate part (str " ") names hpartmem).map Char.toLower)
  have hdegen : ¬(pyLower banned <:+: pyLower ([] : Str)) := by
    intro h0
    have h1 : pyLower banned = [] := List.eq_nil_of_infix_nil (by simpa [pyLower] using h0)
    exact hbne (List.map_eq_nil_iff.mp h1)
  rcases h with h | h
  · cases hp : b.primary with
    | none =>
      rw [hp] at h
      exact absurd (by simpa [pyStrip] using h) hdegen
    | some v =>
      rw [hp] at h
      simp only [Option.getD_some] at h
      by_cases hv : pyStrip v = []
      · rw [hv] at h
        exact absurd h hdegen
      · exact hmem (pyStrip v) h (by
          rw [hnames]
          apply List.mem_append_left
          rw [hp]
          simp [hv])
  · cases hp : b.secondary with
    | none =>
      rw [hp] at h
      exact absurd (by simpa [pyStrip] using h) hdegen
    | some v =>
      rw [hp] at h
      simp only [Option.getD_some] at h
      by_cases hv : pyStrip v = []
      · rw [hv] at h
        exact absurd h hdegen
      · exact hmem (pyStrip v) h (by
          rw [hnames]
          apply List.mem_append_right
          rw [hp]
          simp [hv])

/-- Every returned item is a retained listing of the aggregation pass that also
passed the caller filters. -/
theorem mem_items_mem_aggregate (cutoff : Int) (getOrg : Str → Option Org)
    (pagesOf : Str → List Payload) (zips include_breeds exclude_breeds sizes : List Str)
    (page page_size : Nat) (sort : Str) (x : Animal)
    (hx : x ∈ (search_animals cutoff getOrg pagesOf zips include_breeds exclude_breeds sizes
      page page_size sort).items) :
    (∃ p ∈ aggregate cutoff getOrg (fetch_zips cutoff pagesOf zips), p.2 = x) ∧
    matches_filters include_breeds exclude_breeds sizes x = true := by
  unfold search_animals at hx
  have h1 : x ∈ sortStep sort (pipeline_filtered cutoff getOrg pagesOf zips include_breeds
      exclude_breeds sizes) :=
    List.drop_subset _ _ (List.take_subset _ _ hx)
  have h2 : x ∈ pipeline_filtered cutoff getOrg pagesOf zips include_breeds
      exclude_breeds sizes := by
    unfold sortStep at h1
    split_ifs at h1 <;> rwa [List.mem_insertionSort] at h1
  unfold pipeline_filtered at h2
  rw [List.mem_filter] at h2
  obtain ⟨hmem, hfil⟩ := h2
  rw [List.mem_map] at hmem
  obtain ⟨p, hp, hpx⟩ := hmem
  exact ⟨⟨p, hp, hpx⟩, hfil⟩

/-- C1: in an aggregation pass of `search_animals`, retained listings have
pairwise distinct ids and pairwise distinct fingerprints; consequently two
result entries whose six normalized (lowercased, trimmed) identifying fields —
name, primary breed, secondary breed, age, size, gender — coincide are the same
entry, so of two fetched listings with identical normalized fields but
different ids at most one appears. -/
theorem claim_C1_dedup (cutoff : Int) (getOrg : Str → Option Org) (fetched : List Animal)
    (p q : Int × Animal)
    (hp : p ∈ aggregate cutoff getOrg fetched) (hq : q ∈ aggregate cutoff getOrg fetched)
    (hname : normField p.2.name = normField q.2.name)
    (hpb : normField p.2.breeds.primary = normField q.2.breeds.primary)
    (hsb : normField p.2.breeds.secondary = normField q.2.breeds.secondary)
    (hage : normField p.2.age = normField q.2.age)
    (hsize : normField p.2.size = normField q.2.size)
    (hgen : normField p.2.gender = normField q.2.gender) :
    p = q ∧ ((aggregate cutoff getOrg fetched).map Prod.fst).Nodup ∧
    ((aggregate cutoff getOrg fetched).map fun r => create_dog_fingerprint r.2).Nodup := by
  have hinv := aggregate_inv cutoff getOrg fetched
  have hfp : create_dog_fingerprint p.2 = create_dog_fingerprint q.2 := by
    unfold create_dog_fingerprint
    rw [hname, hpb, hsb, hage, hsize, hgen]
  exact ⟨List.inj_on_of_nodup_map hinv.2.1 hp hq hfp, hinv.1, hinv.2.1⟩

/-- C1 witness: the same dog re-posted under ids 1 and 2 is retained once. -/
theorem claim_C1_witness :
    ((1 : Int), dogA') ∈ aggregate 0 noOrg [dogA, dogB] ∧
    aggregate 0 noOrg [dogA, dogB] = [((1 : Int), dogA')] ∧
    (((1 : Int), dogA') = ((1 : Int), dogA') ∧
     ((aggregate 0 noOrg [dogA, dogB]).map Prod.fst).Nodup ∧
     ((aggregate 0 noOrg [dogA, dogB]).map fun r => create_dog_fingerprint r.2).Nodup) :=
  ⟨by decide, by decide,
   claim_C1_dedup 0 noOrg [dogA, dogB] (1, dogA') (1, dogA')
     (by decide) (by decide) rfl rfl rfl rfl rfl rfl⟩

/-- C5: every listing returned by `search_animals` satisfies the recency
predicate (its publish timestamp parses and is at or после the 24-hour
cutoff); equivalently, a listing older than the cutoff never appears in the
result, regardless of all other filter parameters. -/
theorem claim_C5_recency (cutoff : Int) (getOrg : Str → Option Org)
    (pagesOf : Str → List Payload) (zips include_breeds exclude_breeds sizes : List Str)
    (page page_size : Nat) (sort : Str) (x : Animal)
    (hx : x ∈ (search_animals cutoff getOrg pagesOf zips include_breeds exclude_breeds sizes
      page page_size sort).items) :
    within_24_hours cutoff x.published_at = true := by
  obtain ⟨⟨p, hp, hpx⟩, _⟩ := mem_items_mem_aggregate cutoff getOrg pagesOf zips
    include_breeds exclude_breeds sizes page page_size sort x hx
  have := ((aggregate_inv cutoff getOrg (fetch_zips cutoff pagesOf zips)).2.2.2 p hp).1
  rwa [hpx] at this

/-- C5 witness: a concrete search returns `dogA'`, which satisfies the recency
predicate. -/
theorem claim_C5_witness :
    dogA' ∈ (search_animals 0 noOrg (pagesFor [dogA]) [str "z"] [] [] [] 1 10
      (str "freshness")).items ∧
    within_24_hours 0 dogA'.published_at = true :=
  ⟨by decide,
   claim_C5_recency 0 noOrg (pagesFor [dogA]) [str "z"] [] [] [] 1 10 (str "freshness")
     dogA' (by decide)⟩

/-- C6: no listing returned by `search_animals` has a primary or secondary
breed name whose stripped, lowercased form contains a configured
excluded-breed substring (lowercased) — in particular this holds for every
choice of caller include-breed filter. -/
theorem claim_C6_breed_exclusion (cutoff : Int) (getOrg : Str → Option Org)
    (pagesOf : Str → List Payload) (zips include_breeds exclude_breeds sizes : List Str)
    (page page_size : Nat) (sort : Str) (x : Animal) (banned : Str)
    (hx : x ∈ (search_animals cutoff getOrg pagesOf zips include_breeds exclude_breeds sizes
      page page_size sort).items)
    (hb : banned ∈ EXCLUDED_BREEDS) :
    ¬(pyLower banned <:+: pyLower (pyStrip (x.breeds.primary.getD []))) ∧
    ¬(pyLower banned <:+: pyLower (pyStrip (x.breeds.secondary.getD []))) := by
  obtain ⟨⟨p, hp, hpx⟩, _⟩ := mem_items_mem_aggregate cutoff getOrg pagesOf zips
    include_breeds exclude_breeds sizes page page_size sort x hx
  have hbe : breed_excluded x.breeds = false := by
    have := ((aggregate_inv cutoff getOrg (fetch_zips cutoff pagesOf zips)).2.2.2 p hp).2
    rwa [hpx] at this
  constructor
  · intro hin
    rw [breed_excluded_of_substr x.breeds banned hb (Or.inl hin)] at hbe
    cases hbe
  · intro hin
    rw [breed_excluded_of_substr x.breeds banned hb (Or.inr hin)] at hbe
    cases hbe

/-- C6 witness: in a concrete search result with an include-breed filter
present, the returned listing's breed names contain no excluded substring
(instantiated at `"Husky"`). -/
theorem claim_C6_witness :
    dogA' ∈ (search_animals 0 noOrg (pagesFor [dogA]) [str "z"] [] [] [] 1 10
      (str "freshness")).items ∧
    (¬(pyLower (str "Husky") <:+: pyLower (pyStrip (dogA'.breeds.primary.getD []))) ∧
     ¬(pyLower (str "Husky") <:+: pyLower (pyStrip (dogA'.breeds.secondary.getD [])))) :=
  ⟨by decide,
   claim_C6_breed_exclusion 0 noOrg (pagesFor [dogA]) [str "z"] [] [] [] 1 10
     (str "freshness") dogA' (str "Husky") (by decide) (by decide)⟩

/-- C2: for `page ≥ 1` and `page_size ≥ 1`, the returned `items` is exactly the
slice `[(page-1)*pageSize, page*pageSize)` of the filtered, sorted listings, its
length is `min(pageSize, max(0, total - (page-1)*pageSize))` (the truncated `Nat`
subtraction is that clamped difference), and `total` is the full post-filter
count, independent of `page` and `page_size`. -/
theorem claim_C2_pagination (cutoff : Int) (getOrg : Str → Option Org)
    (pagesOf : Str → List Payload) (zips include_breeds exclude_breeds sizes : List Str)
    (sort : Str) (page page_size : Nat) (h1 : 1 ≤ page) (h2 : 1 ≤ page_size) :
    (search_animals cutoff getOrg pagesOf zips include_breeds exclude_breeds sizes
        page page_size sort).items.length =
      min page_size ((search_animals cutoff getOrg pagesOf zips include_breeds exclude_breeds
        sizes page page_size sort).total - (page - 1) * page_size) ∧
    (search_animals cutoff getOrg pagesOf zips include_breeds exclude_breeds sizes
        page page_size sort).items =
      ((sortStep sort (pipeline_filtered cutoff getOrg pagesOf zips include_breeds
        exclude_breeds sizes)).drop ((page - 1) * page_size)).take page_size ∧
    (search_animals cutoff getOrg pagesOf zips include_breeds exclude_breeds sizes
        page page_size sort).total =
      (pipeline_filtered cutoff getOrg pagesOf zips include_breeds exclude_breeds
        sizes).length ∧
    (∀ page' page_size' : Nat,
      (search_animals cutoff getOrg pagesOf zips include_breeds exclude_breeds sizes
        page' page_size' sort).total =
      (search_animals cutoff getOrg pagesOf zips include_breeds exclude_breeds sizes
        page page_size sort).total) := by
  refine ⟨?_, rfl, ?_, ?_⟩
  · show (((sortStep sort (pipeline_filtered cutoff getOrg pagesOf zips include_breeds
      exclude_breeds sizes)).drop ((page - 1) * page_size)).take page_size).length = _
    rw [List.length_take, List.length_drop]
    rfl
  · show (sortStep sort (pipeline_filtered cutoff getOrg pagesOf zips include_breeds
      exclude_breeds sizes)).length = _
    unfold sortStep
    split_ifs <;> rw [List.length_insertionSort]
  · intro page' page_size'
    rfl

/-- C2 witness: a concrete one-listing search at `page = 1`, `page_size = 10`. -/
theorem claim_C2_witness :
    (1 : Nat) ≤ 1 ∧ (1 : Nat) ≤ 10 ∧
    ((search_animals 0 noOrg (pagesFor [dogA]) [str "z"] [] [] [] 1 10
        (str "freshness")).items.length =
      min 10 ((search_animals 0 noOrg (pagesFor [dogA]) [str "z"] [] [] [] 1 10
        (str "freshness")).total - (1 - 1) * 10) ∧
     (search_animals 0 noOrg (pagesFor [dogA]) [str "z"] [] [] [] 1 10
        (str "freshness")).items =
      ((sortStep (str "freshness") (pipeline_filtered 0 noOrg (pagesFor [dogA]) [str "z"]
        [] [] [])).drop ((1 - 1) * 10)).take 10 ∧
     (search_animals 0 noOrg (pagesFor [dogA]) [str "z"] [] [] [] 1 10
        (str "freshness")).total =
      (pipeline_filtered 0 noOrg (pagesFor [dogA]) [str "z"] [] [] []).length ∧
     (∀ page' page_size' : Nat,
       (search_animals 0 noOrg (pagesFor [dogA]) [str "z"] [] [] [] page' page_size'
         (str "freshness")).total =
       (search_animals 0 noOrg (pagesFor [dogA]) [str "z"] [] [] [] 1 10
         (str "freshness")).total)) :=
  ⟨Nat.le_refl 1, by decide,
   claim_C2_pagination 0 noOrg (pagesFor [dogA]) [str "z"] [] [] [] (str "freshness")
     1 10 (Nat.le_refl 1) (by decide)⟩

/-- C7 counterexample: the claim orders unparseable publish timestamps as
*earliest*, but the code keys them at the Unix epoch
(`datetime.fromtimestamp(0)`): against a listing that parses to one day
*before* the epoch, the unparseable listing sorts strictly *later* (first in
descending order), not earliest (last). -/
theorem claim_C7_counterexample :
    parse_dt dogUnp.published_at = none ∧
    parse_dt dogPre.published_at = some (-86400) ∧
    sortStep (str "freshness") [dogUnp, dogPre] = [dogUnp, dogPre] ∧
    sortStep (str "freshness") [dogUnp, dogPre] ≠ [dogPre, dogUnp] :=
  ⟨rfl, rfl, by decide, by decide⟩

/-- C7 (amended): with sort mode `"distance"` the filtered listings are a
permutation of the input ordered by ascending numeric distance (`None` read as
0); with any other mode they are ordered by descending publish timestamp with
listings whose timestamps fail to parse keyed at the Unix epoch (hence
earliest only among post-1970 timestamps); the concrete scenarios hold:
distances 5, 1, 3 yield [1, 3, 5], and timestamps T1=10, T2=5, T3=20 yield
[T3, T1, T2]. -/
theorem claim_C7_sort_amended :
    (∀ l : List Animal,
      (sortStep (str "distance") l).Perm l ∧
      (sortStep (str "distance") l).Sorted (fun x y => distance_key x ≤ distance_key y)) ∧
    (∀ (s : Str) (l : List Animal), s ≠ str "distance" →
      (sortStep s l).Perm l ∧
      (sortStep s l).Sorted (fun x y => freshness_key y ≤ freshness_key x)) ∧
    (∀ a : Animal, parse_dt a.published_at = none → freshness_key a = 0) ∧
    sortStep (str "distance") [dogD5, dogD1, dogD3] = [dogD1, dogD3, dogD5] ∧
    sortStep (str "freshness") [dogD5, dogD1, dogD3] = [dogD3, dogD5, dogD1] := by
  refine ⟨?_, ?_, ?_, by decide, by decide⟩
  · intro l
    haveI ht : IsTotal Animal (fun x y => distance_key x ≤ distance_key y) :=
      ⟨fun a b => le_total _ _⟩
    haveI htr : IsTrans Animal (fun x y => distance_key x ≤ distance_key y) :=
      ⟨fun _ _ _ hab hbc => le_trans hab hbc⟩
    constructor
    · unfold sortStep
      rw [if_pos rfl]
      exact List.perm_insertionSort _ l
    · unfold sortStep
      rw [if_pos rfl]
      exact List.sorted_insertionSort _ l
  · intro s l hs
    haveI ht : IsTotal Animal (fun x y => freshness_key y ≤ freshness_key x) :=
      ⟨fun a b => (le_total _ _).symm⟩
    haveI htr : IsTrans Animal (fun x y => freshness_key y ≤ freshness_key x) :=
      ⟨fun _ _ _ hab hbc => le_trans hbc hab⟩
    constructor
    · unfold sortStep
      rw [if_neg hs]
      exact List.perm_insertionSort _ l
    · unfold sortStep
      rw [if_neg hs]
      exact List.sorted_insertionSort _ l
  · intro a ha
    unfold freshness_key
    rw [ha]
    rfl

/-- C7 witness: the default-mode branch instantiated at a concrete non-distance
sort string and list, and the epoch key of an unparseable timestamp. -/
theorem claim_C7_witness :
    (sortStep (str "freshness") [dogA]).Perm [dogA] ∧ freshness_key dogUnp = 0 :=
  ⟨(claim_C7_sort_amended.2.1 (str "freshness") [dogA] (by decide)).1,
   claim_C7_sort_amended.2.2.1 dogUnp rfl⟩

/-- C9: `CUTOFF_UTC` is a module constant computed once from the import-time
clock `now0`: the recency test, the pagination early exit and the whole search
pipeline give identical results at any two request instants `t`, `t'` of the
same process — the 24-hour window is anchored at process start, not at the
request. -/
theorem claim_C9_fixed_cutoff :
    ∀ (now0 t t' : Int) (s : PubStr) (payloads : List Payload)
      (getOrg : Str → Option Org) (pagesOf : Str → List Payload)
      (zips include_breeds exclude_breeds sizes : List Str)
      (page page_size : Nat) (sort : Str),
    within_24_hours_at now0 t s = within_24_hours_at now0 t' s ∧
    collect_animals_at now0 t payloads = collect_animals_at now0 t' payloads ∧
    search_animals_at now0 t getOrg pagesOf zips include_breeds exclude_breeds sizes
        page page_size sort =
      search_animals_at now0 t' getOrg pagesOf zips include_breeds exclude_breeds sizes
        page page_size sort ∧
    CUTOFF_UTC now0 = now0 - 86400 :=
  fun now0 _ _ _ _ _ _ _ _ _ _ _ _ _ =>
    ⟨rfl, rfl, rfl, by norm_num [CUTOFF_UTC]⟩

theorem dlookup_dinsert_self {κ α : Type} [DecidableEq κ] (k : κ) (v : α)
    (c : List (κ × α)) : dlookup k (dinsert k v c) = some v := by
  induction c with
  | nil => simp [dinsert, dlookup]
  | cons h tl ih =>
    obtain ⟨k', v'⟩ := h
    by_cases hk : k' = k
    · simp [dinsert, hk, dlookup]
    · simp [dinsert, hk, dlookup, ih]

theorem dlookup_dinsert_ne {κ α : Type} [DecidableEq κ] (k k' : κ) (v : α)
    (c : List (κ × α)) (h : k' ≠ k) : dlookup k' (dinsert k v c) = dlookup k' c := by
  have hkk : ¬k = k' := fun hh => h hh.symm
  induction c with
  | nil => simp [dinsert, dlookup, hkk]
  | cons hd tl ih =>
    obtain ⟨k₀, v₀⟩ := hd
    by_cases hk : k₀ = k
    · subst hk
      simp [dinsert, dlookup, hkk]
    · simp [dinsert, hk, dlookup, ih]

theorem dlookup_derase_ne {κ α : Type} [DecidableEq κ] (k k' : κ)
    (c : List (κ × α)) (h : k' ≠ k) : dlookup k' (derase k c) = dlookup k' c := by
  have hkk : ¬k = k' := fun hh => h hh.symm
  induction c with
  | nil => simp [derase, dlookup]
  | cons hd tl ih =>
    obtain ⟨k₀, v₀⟩ := hd
    by_cases hk : k₀ = k
    · subst hk
      simp [derase, dlookup, hkk]
    · simp [derase, hk, dlookup, ih]

/-- C4: `cache_set` stores the value under the key with absolute expiry
`now + ttl` and removes nothing else; a subsequent `cache_get` returns the
value while the stored expiry has not passed at read time, and otherwise
removes the expired entry and returns `none`; an absent key reads as `none`;
and a read never touches any other key — expired entries are purged only by a
read of their own key (there is no background sweep: `cache_get` and
`cache_set` are the only operations on `_CACHE`). -/
theorem claim_C4_cache_ttl {α : Type} (c : List (Str × Int × α)) (t now ttl : Int)
    (key : Str) (v : α) :
    dlookup key (cache_set c t key v ttl) = some (t + ttl, v) ∧
    (∀ k', k' ≠ key → dlookup k' (cache_set c t key v ttl) = dlookup k' c) ∧
    (∀ exp val, dlookup key c = some (exp, val) → now ≤ exp →
      cache_get c now key = (some val, c)) ∧
    (∀ exp val, dlookup key c = some (exp, val) → exp < now →
      cache_get c now key = (none, derase key c)) ∧
    (dlookup key c = none → cache_get c now key = (none, c)) ∧
    (∀ k', k' ≠ key → dlookup k' (cache_get c now key).2 = dlookup k' c) := by
  refine ⟨dlookup_dinsert_self key (t + ttl, v) c,
    fun k' hk' => dlookup_dinsert_ne key k' (t + ttl, v) c hk', ?_, ?_, ?_, ?_⟩
  · intro exp val hl hle
    unfold cache_get
    rw [hl]
    dsimp only
    rw [if_neg (by omega)]
  · intro exp val hl hlt
    unfold cache_get
    rw [hl]
    dsimp only
    rw [if_pos hlt]
  · intro hl
    unfold cache_get
    rw [hl]
  · intro k' hk'
    unfold cache_get
    cases hl : dlookup key c with
    | none => rfl
    | some e =>
      obtain ⟨exp, val⟩ := e
      dsimp only
      by_cases hlt : exp < now
      · rw [if_pos hlt]
        exact dlookup_derase_ne key k' c hk'
      · rw [if_neg hlt]

/-- C4 witness: a concrete set/get round trip — a fresh read returns the
value, an expired read evicts and returns `none`, and other keys are
untouched. -/
theorem claim_C4_witness :
    dlookup (str "k") (cache_set ([] : List (Str × Int × Nat)) 0 (str "k") 42 600) =
      some (600, 42) ∧
    cache_get (cache_set ([] : List (Str × Int × Nat)) 0 (str "k") 42 600) 10 (str "k") =
      (some 42, cache_set ([] : List (Str × Int × Nat)) 0 (str "k") 42 600) ∧
    cache_get (cache_set ([] : List (Str × Int × Nat)) 0 (str "k") 42 600) 601 (str "k") =
      (none, derase (str "k") (cache_set ([] : List (Str × Int × Nat)) 0 (str "k") 42 600)) :=
  ⟨(claim_C4_cache_ttl ([] : List (Str × Int × Nat)) 0 10 600 (str "k") 42).1,
   (claim_C4_cache_ttl (cache_set ([] : List (Str × Int × Nat)) 0 (str "k") 42 600)
      0 10 600 (str "k") 42).2.2.1 600 42 (by decide) (by decide),
   (claim_C4_cache_ttl (cache_set ([] : List (Str × Int × Nat)) 0 (str "k") 42 600)
      0 601 600 (str "k") 42).2.2.2.1 600 42 (by decide) (by decide)⟩

theorem dinsert_append_of_forall_ne {κ α : Type} [DecidableEq κ] (k : κ) (v : α)
    (c : List (κ × α)) (h : ∀ kv ∈ c, kv.1 ≠ k) : dinsert k v c = c ++ [(k, v)] := by
  induction c with
  | nil => rfl
  | cons hd tl ih =>
    obtain ⟨k₀, v₀⟩ := hd
    have hne : k₀ ≠ k := h (k₀, v₀) (List.mem_cons_self _ _)
    simp only [dinsert, if_neg hne, List.cons_append]
    rw [ih fun kv hkv => h kv (List.mem_cons_of_mem _ hkv)]

theorem filter_snd_map_comm {β : Type} (l : List (β × Int)) (p : Int → Bool) :
    (l.filter fun kv => p kv.2).map Prod.snd = (l.map Prod.snd).filter p := by
  induction l with
  | nil => rfl
  | cons hd tl ih =>
    by_cases hp : p hd.2 <;> simp [hp, ih]

theorem check_rate_limit_rlS (identifier : Str) (k N : Nat) (w : Int)
    (hw : (k : Int) < w) :
    check_rate_limit (rlS identifier k) identifier N w k =
      (decide (k < N), if k < N then rlS identifier (k + 1) else rlS identifier k) := by
  unfold check_rate_limit
  have hall : ∀ kv ∈ rlS identifier k, (decide ((k : Int) - w < kv.2)) = true := by
    intro kv hkv
    unfold rlS at hkv
    rw [List.mem_map] at hkv
    obtain ⟨i, hi, rfl⟩ := hkv
    rw [List.mem_range] at hi
    simp only [decide_eq_true_eq, Int.ofNat_eq_coe]
    omega
  have hfilter : (rlS identifier k).filter (fun kv => decide ((k : Int) - w < kv.2)) =
      rlS identifier k := List.filter_eq_self.mpr hall
  dsimp only
  rw [hfilter]
  have hmapfil : ((rlS identifier k).map Prod.snd).filter
      (fun v => decide ((k : Int) - w < v)) = (rlS identifier k).map Prod.snd := by
    apply List.filter_eq_self.mpr
    intro v hv
    rw [List.mem_map] at hv
    obtain ⟨kv, hkv, rfl⟩ := hv
    exact hall kv hkv
  rw [hmapfil]
  have hlen : ((rlS identifier k).map Prod.snd).length = k := by
    unfold rlS
    rw [List.length_map, List.length_map, List.length_range]
  rw [hlen]
  by_cases hkN : k < N
  · rw [if_neg (by omega : ¬N ≤ k), if_pos hkN, decide_eq_true hkN]
    refine congrArg (Prod.mk true) ?_
    rw [dinsert_append_of_forall_ne]
    · unfold rlS
      rw [List.range_succ, List.map_append]
      rfl
    · intro kv hkv heq
      unfold rlS at hkv
      rw [List.mem_map] at hkv
      obtain ⟨i, hi, rfl⟩ := hkv
      rw [List.mem_range] at hi
      have h2 : Int.ofNat i = Int.ofNat k := congrArg Prod.snd heq
      simp only [Int.ofNat_eq_coe] at h2
      omega
  · rw [if_pos (by omega : N ≤ k), if_neg hkN]
    rw [decide_eq_false hkN]

theorem rl_run_snoc (identifier : Str) (N : Nat) (w : Int)
    (st : List ((Str × Int) × Int)) (times : List Int) (t : Int) :
    rl_run identifier N w st (times ++ [t]) =
      ((rl_run identifier N w st times).1 ++
        [(check_rate_limit (rl_run identifier N w st times).2 identifier N w t).1],
       (check_rate_limit (rl_run identifier N w st times).2 identifier N w t).2) := by
  unfold rl_run
  rw [List.foldl_append]
  rfl

theorem rl_times_succ (k : Nat) : rl_times (k + 1) = rl_times k ++ [(k : Int)] := by
  unfold rl_times
  rw [List.range_succ, List.map_append]
  rfl

theorem rl_run_upTo (identifier : Str) (N : Nat) (w : Int) (hw : (N : Int) < w) :
    ∀ k, k ≤ N →
      rl_run identifier N w [] (rl_times k) = (List.replicate k true, rlS identifier k) := by
  intro k
  induction k with
  | zero => intro _; rfl
  | succ k ih =>
    intro hk
    rw [rl_times_succ, rl_run_snoc, ih (by omega)]
    rw [check_rate_limit_rlS identifier k N w (by omega)]
    have hkN : k < N := by omega
    rw [decide_eq_true hkN, if_pos hkN]
    rw [← List.replicate_succ' k true]

theorem rl_scenario (identifier : Str) (N : Nat) (w : Int) (hw : (N : Int) < w) :
    (rl_run identifier N w [] (rl_times (N + 1))).1 =
      List.replicate N true ++ [false] := by
  rw [rl_times_succ, rl_run_snoc, rl_run_upTo identifier N w hw N (Nat.le_refl N)]
  rw [check_rate_limit_rlS identifier N N w hw]
  rw [decide_eq_false (by omega : ¬N < N)]

/-- C3 counterexample: the claim says requests recorded under one identifier do
not count against a different identifier, so after a single granted request
under `"a"` (limit 1 per 60 s), a first request under `"b"` one second later
must be allowed.  The code counts the values of `_RATE_LIMIT` without keying by
identifier, so the `"b"` request is refused. -/
theorem claim_C3_counterexample :
    (check_rate_limit [] (str "a") 1 60 0).1 = true ∧
    (check_rate_limit (check_rate_limit [] (str "a") 1 60 0).2 (str "b") 1 60 1).1 = false :=
  ⟨by decide, by decide⟩

/-- C3 (amended): `check_rate_limit` maintains a single *global* sliding
window: a call is allowed (and recorded) exactly when fewer than
`max_requests` requests — under *any* identifier — were recorded within the
trailing `window_seconds`; starting from an empty state, of `N + 1` calls at
times `0, …, N` inside the window (limit `N`) the first `N` are allowed and
the `(N+1)`-th is refused; and once every recorded request has aged past the
window, a subsequent call is allowed again. -/
theorem claim_C3_rate_limit_amended :
    (∀ (st : List ((Str × Int) × Int)) (identifier : Str) (maxR : Nat) (w now : Int),
      (check_rate_limit st identifier maxR w now).1 = true ↔
        ((st.map Prod.snd).filter fun v => decide (now - w < v)).length < maxR) ∧
    (∀ (identifier : Str) (N : Nat) (w : Int), (N : Int) < w →
      (rl_run identifier N w [] (rl_times (N + 1))).1 =
        List.replicate N true ++ [false]) ∧
    (∀ (st : List ((Str × Int) × Int)) (identifier : Str) (maxR : Nat) (w t : Int),
      1 ≤ maxR → (∀ v ∈ st.map Prod.snd, v ≤ t - w) →
      (check_rate_limit st identifier maxR w t).1 = true) := by
  refine ⟨?_, rl_scenario, ?_⟩
  · intro st identifier maxR w now
    unfold check_rate_limit
    dsimp only
    rw [filter_snd_map_comm st (fun v => decide (now - w < v))]
    rw [List.filter_filter]
    rw [show (fun a => decide (now - w < a) && decide (now - w < a)) =
        (fun v => decide (now - w < v)) from funext fun a => Bool.and_self _]
    by_cases hle : maxR ≤ ((st.map Prod.snd).filter fun v => decide (now - w < v)).length
    · rw [if_pos hle]
      constructor
      · intro h; cases h
      · intro h; omega
    · rw [if_neg hle]
      constructor
      · intro _; omega
      · intro _; rfl
  · intro st identifier maxR w t h1 h2
    unfold check_rate_limit
    dsimp only
    have hnil : st.filter (fun kv => decide (t - w < kv.2)) = [] := by
      apply List.filter_eq_nil_iff.mpr
      intro kv hkv
      simp only [decide_eq_true_eq]
      have := h2 kv.2 (List.mem_map.mpr ⟨kv, hkv, rfl⟩)
      omega
    rw [hnil]
    rw [if_neg (by simp; omega : ¬maxR ≤ (([] : List ((Str × Int) × Int)).map
      Prod.snd |>.filter fun v => decide (t - w < v)).length)]

/-- C3 witness: the global-count characterization at a concrete empty state;
the 3-call scenario with limit 2 (allowed, allowed, refused); and a granted
call once the two recorded requests (times 0, 1) have aged out of the 60 s
window at time 100. -/
theorem claim_C3_witness :
    ((check_rate_limit [] (str "search") 5 60 0).1 = true ↔
      ((([] : List ((Str × Int) × Int)).map Prod.snd).filter
        fun v => decide ((0 : Int) - 60 < v)).length < 5) ∧
    (rl_run (str "search") 2 60 [] (rl_times 3)).1 = List.replicate 2 true ++ [false] ∧
    (check_rate_limit (rlS (str "search") 2) (str "search") 2 60 100).1 = true :=
  ⟨claim_C3_rate_limit_amended.1 [] (str "search") 5 60 0,
   claim_C3_rate_limit_amended.2.1 (str "search") 2 60 (by decide),
   claim_C3_rate_limit_amended.2.2 (rlS (str "search") 2) (str "search") 2 60 100
     (by decide) (by decide)⟩

theorem shelter_in_ne_nil (c s : Str) : shelter_in c s ≠ [] := by
  intro h
  unfold shelter_in at h
  rcases List.append_eq_nil.mp h with ⟨h1, _⟩
  rcases List.append_eq_nil.mp h1 with ⟨h2, _⟩
  rcases List.append_eq_nil.mp h2 with ⟨h3, _⟩
  exact (by decide : str "Shelter in " ≠ []) h3

/-- C8 counterexample: the claim asserts the fallback organization name is
always non-empty, but with a failing lookup, no city/state, and the contact
email `a@.org` — whose domain part `.org` normalizes to the empty string — the
code returns an empty name. -/
theorem claim_C8_counterexample :
    dogBadEmail.contact.email = some (str "a@.org") ∧
    noOrg (str "ORG1") = none ∧
    (extract_organization_info noOrg dogBadEmail).name = [] :=
  ⟨rfl, rfl, by decide⟩

set_option maxHeartbeats 2000000 in
/-- C8 (amended): when the organization lookup fails, the name is derived from
the contact block as follows.  With city and state present the name is always
non-empty: it is the title-cased email-domain (suffixes stripped) when the
email contains `@` and that derivation is non-empty, else
`Shelter in {city}, {state}`.  With city or state absent, an email containing
`@` yields the derived domain name — which may be *empty* when the domain
strips to nothing — and otherwise the placeholder `Unknown Shelter` is used. -/
theorem claim_C8_org_fallback_amended (getOrg : Str → Option Org) (animal : Animal)
    (hfail : ∀ oid, animal.organization_id = some oid → oid ≠ [] → getOrg oid = none) :
    ((((animal.contact.address.getD {}).city.getD []) ≠ [] ∧
      ((animal.contact.address.getD {}).state.getD []) ≠ []) →
      (extract_organization_info getOrg animal).name ≠ [] ∧
      ((animal.contact.email.getD []) ≠ [] ∧ '@' ∈ (animal.contact.email.getD []) ∧
        derive_org_name_from_email (animal.contact.email.getD []) ≠ [] →
        (extract_organization_info getOrg animal).name =
          derive_org_name_from_email (animal.contact.email.getD []))) ∧
    ((((animal.contact.address.getD {}).city.getD []) = [] ∨
      ((animal.contact.address.getD {}).state.getD []) = []) →
      (((animal.contact.email.getD []) ≠ [] ∧ '@' ∈ (animal.contact.email.getD [])) →
        (extract_organization_info getOrg animal).name =
          derive_org_name_from_email (animal.contact.email.getD [])) ∧
      (¬((animal.contact.email.getD []) ≠ [] ∧ '@' ∈ (animal.contact.email.getD [])) →
        (extract_organization_info getOrg animal).name = str "Unknown Shelter")) := by
  have hapi : (match animal.organization_id with
      | some oid => if oid ≠ [] then getOrg oid else none
      | none => none) = (none : Option Org) := by
    cases ho : animal.organization_id with
    | none => rfl
    | some oid =>
      by_cases hne : oid ≠ []
      · simp only [if_pos hne]
        exact hfail oid ho hne
      · simp only [if_neg hne]
  have hex : extract_organization_info getOrg animal =
      { name :=
          (if ((animal.contact.address.getD {}).city.getD []) ≠ [] ∧
              ((animal.contact.address.getD {}).state.getD []) ≠ [] then
            if (animal.contact.email.getD []) ≠ [] ∧ '@' ∈ (animal.contact.email.getD []) then
              if derive_org_name_from_email (animal.contact.email.getD []) = [] then
                shelter_in ((animal.contact.address.getD {}).city.getD [])
                  ((animal.contact.address.getD {}).state.getD [])
              else derive_org_name_from_email (animal.contact.email.getD [])
            else
              shelter_in ((animal.contact.address.getD {}).city.getD [])
                ((animal.contact.address.getD {}).state.getD [])
          else if (animal.contact.email.getD []) ≠ [] ∧ '@' ∈ (animal.contact.email.getD []) then
            derive_org_name_from_email (animal.contact.email.getD [])
          else str "Unknown Shelter")
        email := animal.contact.email.getD []
        phone := animal.contact.phone.getD [] } := by
    unfold extract_organization_info
    rw [hapi]
  rw [hex]
  constructor
  · intro hcs
    rw [if_pos hcs]
    by_cases hem : (animal.contact.email.getD []) ≠ [] ∧ '@' ∈ (animal.contact.email.getD [])
    · rw [if_pos hem]
      by_cases hd : derive_org_name_from_email (animal.contact.email.getD []) = []
      · rw [if_pos hd]
        exact ⟨shelter_in_ne_nil _ _, fun hpr => absurd hd hpr.2.2⟩
      · rw [if_neg hd]
        exact ⟨hd, fun _ => rfl⟩
    · rw [if_neg hem]
      exact ⟨shelter_in_ne_nil _ _, fun hpr => absurd ⟨hpr.1, hpr.2.1⟩ hem⟩
  · intro hcs
    have hcsneg : ¬(((animal.contact.address.getD {}).city.getD []) ≠ [] ∧
        ((animal.contact.address.getD {}).state.getD []) ≠ []) := by
      rcases hcs with h | h
      · exact fun hc => hc.1 h
      · exact fun hc => hc.2 h
    rw [if_neg hcsneg]
    constructor
    · intro hem
      rw [if_pos hem]
    · intro hem
      rw [if_neg hem]

/-- C8 witness: a failing lookup with a full contact block — the name is the
title-cased email domain `Happy Paws`, non-empty. -/
theorem claim_C8_witness :
    ((extract_organization_info noOrg dogCity).name ≠ [] ∧
     (extract_organization_info noOrg dogCity).name =
       derive_org_name_from_email (dogCity.contact.email.getD [])) ∧
    derive_org_name_from_email (dogCity.contact.email.getD []) = str "Happy Paws" :=
  ⟨(fun h => ⟨h.1, h.2 (by decide)⟩)
    ((claim_C8_org_fallback_amended noOrg dogCity (fun _ _ _ => rfl)).1 (by decide)),
   by decide⟩

end Dogfinder
